import Mathlib

/-!
Shallow embedding of the host-function linking and trampoline-generation
subsystem of a Rust wrapper around the wasm3 WebAssembly engine
(`src/module.rs`).  Pointers are modelled as natural-number addresses,
C strings as byte lists, the engine's code-page allocator as an oracle
carried in the runtime state, and panics (assertion failures, defensive
runtime checks) as a distinguished hard-fault outcome.
-/

namespace Wasm3

/-- A byte string (the contents of a C string or of a Rust `str`). -/
abbrev ByteStr := List Nat

/-- WebAssembly primitive value types, the building blocks of a signature. -/
inductive WasmPrim where
  | i32
  | i64
  | f32
  | f64
deriving DecidableEq, Repr

/-- A function signature: argument primitive types in order, plus an
optional return primitive type (`none` for a void contract). -/
structure FuncSig where
  args : List WasmPrim
  ret : Option WasmPrim
deriving DecidableEq, Repr

/-- One entry of a module's function table (wasm3's `M3Function`), as the
Rust code reads and writes it: an optional exported name, the import's
declaring-module and field names (`import.moduleUtf8` / `import.fieldUtf8`,
null for non-imports, modelled as `none`), the compiled-entry pointer
(null before linking), the owning-module backpointer, and the declared
signature. -/
structure M3Function where
  name : Option ByteStr
  importModuleUtf8 : Option ByteStr
  importFieldUtf8 : Option ByteStr
  compiled : Option Nat
  modulePtr : Option Nat
  sig : FuncSig
deriving DecidableEq, Repr

/-- The heap state behind an `IM3Module` pointer: the function-table
pointer (`none` models a null `functions` pointer), the `numFunctions`
count field, and the module name. -/
structure ModState where
  functions : Option (List M3Function)
  numFunctions : Nat
  name : ByteStr
deriving DecidableEq, Repr

/-- The function-table slice the Rust code constructs with
`slice::from_raw_parts_mut`: when the table pointer is null a dangling but
valid base is substituted, so the only entries that may legally be read
are none at all; otherwise the pointed-to table. -/
def ModState.funcSlice (m : ModState) : List M3Function :=
  match m.functions with
  | none => []
  | some fs => fs

/-- Well-formedness of the raw module state: the `numFunctions` field is
the length of the slice the code constructs (and in particular is zero
when the table pointer is null, else the dangling slice would be read). -/
def ModState.WF (m : ModState) : Prop :=
  m.numFunctions = m.funcSlice.length

instance (m : ModState) : Decidable m.WF := by
  unfold ModState.WF; infer_instance

/-- `Module`: the copyable loaded-module token, pairing the raw module
pointer with the raw pointer of the runtime it was registered into. -/
structure Module where
  raw : Nat
  raw_rt : Nat
deriving DecidableEq, Repr

/-- Error kinds distinguished by the wrapper (the spec's section 7). -/
inductive Err where
  | functionNotFound
  | signatureMismatch
  | outOfMemory
  | moduleTooLarge
  | wasm3 (code : Nat)
deriving DecidableEq, Repr

/-- Result of a public operation: success, a recoverable error value, or
`fault`, the hard fault raised by a failed assertion or defensive check
(a Rust panic: a caller contract violation, not a recoverable error). -/
inductive Outcome (α : Type) where
  | ok (a : α)
  | err (e : Err)
  | fault
deriving DecidableEq, Repr

/-- Modelled from the spec: `eq_cstr_str` lives in `utils.rs`, which is
not under `src/`.  Per the spec it is an exact byte-string match between
a C string and a Rust string; a null C string (a non-import's
`moduleUtf8`/`fieldUtf8`) matches nothing, which is what restricts the
scan to entries flagged as imports. -/
def eq_cstr_str (c : Option ByteStr) (s : ByteStr) : Bool :=
  match c with
  | none => false
  | some bs => bs = s

/-- Modelled from the spec: `rt_check` lives in `utils.rs`, which is not
under `src/`.  Per the spec it rejects a mismatched token/runtime pair as
a programming-contract violation (hard fault), before anything else. -/
def rt_check_ok (rtRaw : Nat) (tokRt : Nat) : Bool :=
  rtRaw = tokRt

/-- Modelled from the spec: `Function::validate_sig` lives in
`function.rs`, which is not under `src/`.  Per the spec it compares the
slot's declared arity and per-parameter primitive type tags (and return
type) against the static ARGS/RET contract, failing with
`SignatureMismatch` if the arity differs or any primitive type differs,
with no coercion. -/
def validate_sig (contract : FuncSig) (declared : FuncSig) : Except Err Unit :=
  if contract = declared then .ok () else .error .signatureMismatch

/-- Does a table entry match a `(module_name, function_name)` query the
way `find_import_function` tests it: its `import.moduleUtf8` equals the
module name and its `import.fieldUtf8` equals the field name. -/
def importMatch (moduleName functionName : ByteStr) (f : M3Function) : Bool :=
  eq_cstr_str f.importModuleUtf8 moduleName &&
    eq_cstr_str f.importFieldUtf8 functionName

/-- `Module::find_import_function`, translated literally from the source:
over the constructed function-table slice, `filter` on the declaring
module name then `find` on the field name, `FunctionNotFound` on miss. -/
def find_import_function (m : ModState) (moduleName functionName : ByteStr) :
    Except Err M3Function :=
  match (m.funcSlice.filter
          (fun f => eq_cstr_str f.importModuleUtf8 moduleName)).find?
        (fun f => eq_cstr_str f.importFieldUtf8 functionName) with
  | some f => .ok f
  | none => .error .functionNotFound

/-- Locate the first table entry matching both names and split the table
around it, so that the linking operations can write the updated slot back
at the position the Rust code mutates through its `NonNull` pointer. -/
def splitAtImport (moduleName functionName : ByteStr) :
    List M3Function → Option (List M3Function × M3Function × List M3Function)
  | [] => none
  | f :: fs =>
    if importMatch moduleName functionName f then some ([], f, fs)
    else
      match splitAtImport moduleName functionName fs with
      | none => none
      | some (p, g, s) => some (f :: p, g, s)

/-- An engine code page during emission: its base address, the capacity
in machine words it was acquired with, and the words emitted so far
(append-only). -/
structure CodePage where
  base : Nat
  cap : Nat
  words : List Nat
deriving DecidableEq, Repr

/-- `GetPagePC`: the current emission program counter of a page. -/
def GetPagePC (p : CodePage) : Nat :=
  p.base + p.words.length

/-- `EmitWord_impl`: append one machine word to a page. -/
def EmitWord_impl (p : CodePage) (w : Nat) : CodePage :=
  { p with words := p.words ++ [w] }

/-- The runtime state the linking subsystem reads and mutates: the raw
runtime pointer, the value-stack base address and slot count, the closure
lifetime registry (addresses of the pinned boxed closures, in insertion
order), the code-page allocator oracle (`none` models allocator
exhaustion, `some b` the base address of the next fresh page), a count of
successful page acquisitions, and the pages released back so far. -/
structure RtState where
  raw : Nat
  stackBase : Nat
  numStackSlots : Nat
  closures : List Nat
  allocBase : Option Nat
  acquires : Nat
  pages : List CodePage
deriving DecidableEq, Repr

/-- `AcquireCodePageWithCapacity`: ask the engine allocator for a fresh
page of the given word capacity; null (`none`) on exhaustion.  A acquired
page starts with an empty word list, so its PC is its base address. -/
def AcquireCodePageWithCapacity (rt : RtState) (cap : Nat) :
    Option (CodePage × RtState) :=
  match rt.allocBase with
  | none => none
  | some b =>
      some (⟨b, cap, []⟩, { rt with allocBase := none, acquires := rt.acquires + 1 })

/-- `ReleaseCodePage`: seal the emitted page and hand it back. -/
def ReleaseCodePage (rt : RtState) (p : CodePage) : RtState :=
  { rt with pages := rt.pages ++ [p] }

/-- The operation tag wasm3 dispatches on for a direct native call
(`op_CallRawFunction`); an opaque engine symbol, represented by a fixed
address. -/
def op_CallRawFunction : Nat := 100

/-- The operation tag for a shimmed call carrying extra state
(`op_CallRawFunctionEx`); an opaque engine symbol distinct from
`op_CallRawFunction`. -/
def op_CallRawFunctionEx : Nat := 101

/-- `Module::link_func_impl`: acquire a 2-word page; on null return the
`mallocFailedCodePage` engine error (the spec's `OutOfMemory`) without
touching the slot; otherwise set the slot's compiled-entry pointer to the
page PC and its owning-module backpointer to the token's module, emit the
two thunk words, release the page.  Returns the updated slot and runtime. -/
def link_func_impl (self : Module) (rt : RtState) (m3_func : M3Function)
    (func : Nat) : Except Err (M3Function × RtState) :=
  match AcquireCodePageWithCapacity rt 2 with
  | none => .error .outOfMemory
  | some (page, rt1) =>
      let f1 := { m3_func with
                  compiled := some (GetPagePC page), modulePtr := some self.raw }
      let page1 := EmitWord_impl page op_CallRawFunction
      let page2 := EmitWord_impl page1 func
      .ok (f1, ReleaseCodePage rt1 page2)

/-- `Module::link_closure_impl` (emission part): acquire a 3-word page;
on null return the `mallocFailedCodePage` engine error without touching
the slot; otherwise wire the slot and emit the three thunk words: the
shim operation tag, the address of the shim routine specialized to
(ARGS, RET, closure type), and the pointer to the pinned closure
storage. -/
def link_closure_impl (self : Module) (rt : RtState) (m3_func : M3Function)
    (shimAddr closureAddr : Nat) : Except Err (M3Function × RtState) :=
  match AcquireCodePageWithCapacity rt 3 with
  | none => .error .outOfMemory
  | some (page, rt1) =>
      let f1 := { m3_func with
                  compiled := some (GetPagePC page), modulePtr := some self.raw }
      let page1 := EmitWord_impl page op_CallRawFunctionEx
      let page2 := EmitWord_impl page1 shimAddr
      let page3 := EmitWord_impl page2 closureAddr
      .ok (f1, ReleaseCodePage rt1 page3)

/-- Write an updated slot back at the split position, as the Rust code
does by mutating through the `NonNull` pointer into the table. -/
def writeSlot (m : ModState) (pre : List M3Function) (slot : M3Function)
    (suf : List M3Function) : ModState :=
  { m with functions := some (pre ++ slot :: suf) }

/-- `Module::link_function`: runtime check (hard fault on mismatch), then
the import lookup, then signature validation, then emission via
`link_func_impl`.  The triple returned is the outcome together with the
module table state and runtime state after the call. -/
def link_function (self : Module) (rt : RtState) (m : ModState)
    (moduleName functionName : ByteStr) (contract : FuncSig) (func : Nat) :
    Outcome Unit × ModState × RtState :=
  if rt_check_ok rt.raw self.raw_rt then
    match splitAtImport moduleName functionName m.funcSlice with
    | none => (.err .functionNotFound, m, rt)
    | some (pre, slot, suf) =>
        match validate_sig contract slot.sig with
        | .error e => (.err e, m, rt)
        | .ok _ =>
            match link_func_impl self rt slot func with
            | .error e => (.err e, m, rt)
            | .ok (slot1, rt1) => (.ok (), writeSlot m pre slot1 suf, rt1)
  else (.fault, m, rt)

/-- `Module::link_closure`: runtime check, import lookup, signature
validation, then the closure is moved into a pinned heap allocation at
`closureAddr` (`Box::pin`), emission via `link_closure_impl`, and on
success the pinned box is appended to the runtime's closure lifetime
registry (`rt.push_closure`).  On emission failure the box is dropped and
the registry, slot and table are untouched. -/
def link_closure (self : Module) (rt : RtState) (m : ModState)
    (moduleName functionName : ByteStr) (contract : FuncSig)
    (shimAddr closureAddr : Nat) : Outcome Unit × ModState × RtState :=
  if rt_check_ok rt.raw self.raw_rt then
    match splitAtImport moduleName functionName m.funcSlice with
    | none => (.err .functionNotFound, m, rt)
    | some (pre, slot, suf) =>
        match validate_sig contract slot.sig with
        | .error e => (.err e, m, rt)
        | .ok _ =>
            match link_closure_impl self rt slot shimAddr closureAddr with
            | .error e => (.err e, m, rt)
            | .ok (slot1, rt1) =>
                (.ok (), writeSlot m pre slot1 suf,
                 { rt1 with closures := rt1.closures ++ [closureAddr] })
  else (.fault, m, rt)

/-- `Module::find_function`: runtime check, then a linear scan of the
constructed function-table slice for the first entry whose exported name
matches; miss is `FunctionNotFound`.  The found raw entry is then handed
to `Function::from_raw`/`Function::compile` (in `function.rs`, outside
`src/`), modelled by the oracle `fromRawCompile`. -/
def find_function (self : Module) (rt : RtState) (m : ModState)
    (functionName : ByteStr) (fromRawCompile : M3Function → Except Err Nat) :
    Outcome Nat :=
  if rt_check_ok rt.raw self.raw_rt then
    match m.funcSlice.find? (fun f => eq_cstr_str f.name functionName) with
    | none => .err .functionNotFound
    | some f =>
        match fromRawCompile f with
        | .ok h => .ok h
        | .error e => .err e
  else .fault

/-- `Module::function`: runtime check, then a bounds-checked `get` at the
ordinal index into the constructed slice; out of bounds is
`FunctionNotFound`, otherwise exactly the entry at that index is handed
to the `fromRawCompile` oracle. -/
def function (self : Module) (rt : RtState) (m : ModState)
    (function_index : Nat) (fromRawCompile : M3Function → Except Err Nat) :
    Outcome Nat :=
  if rt_check_ok rt.raw self.raw_rt then
    match m.funcSlice[function_index]? with
    | none => .err .functionNotFound
    | some f =>
        match fromRawCompile f with
        | .ok h => .ok h
        | .error e => .err e
  else .fault

/-- `Module::name`: runtime check, then read the module's name field
(`cstr_to_str` on the C string, modelled as the byte string itself). -/
def name (self : Module) (rt : RtState) (m : ModState) : Outcome ByteStr :=
  if rt_check_ok rt.raw self.raw_rt then .ok m.name else .fault

/-- `Module::link_libc`: runtime check, then a pass-through call into the
engine's `m3_LinkLibC`, whose result is the oracle `engineRes` (`none`
models the engine's success sentinel, `some c` an engine error code). -/
def link_libc (self : Module) (rt : RtState) (engineRes : Option Nat) :
    Outcome Unit :=
  if rt_check_ok rt.raw self.raw_rt then
    match engineRes with
    | none => .ok ()
    | some c => .err (.wasm3 c)
  else .fault

/-- The 32-bit length limit `!0u32 as usize` of `ParsedModule::parse`. -/
def U32_MAX : Nat := 2 ^ 32 - 1

/-- `ParsedModule::parse`: `assert!(bytes.len() <= !0u32 as usize)` — a
panic, modelled as `fault`, when the byte length exceeds the limit — and
otherwise a call into the engine parser `m3_ParseModule`, modelled by the
oracle `engineParse` (`.ok p` yields the raw parsed-module pointer,
`.error c` an engine error code mapped through `Error::from_ffi_res`). -/
def ParsedModule.parse (engineParse : List Nat → Except Nat Nat)
    (bytes : List Nat) : Outcome Nat :=
  if bytes.length ≤ U32_MAX then
    match engineParse bytes with
    | .ok p => .ok p
    | .error c => .err (.wasm3 c)
  else .fault

/-- The runtime fields the marshalling shim reads: the value-stack base
address (`(*runtime).stack`), the total stack slot count
(`(*runtime).numStackSlots`), and the memory contents, one `u64` per
slot index counted from the stack base. -/
structure RtView where
  stackBase : Nat
  numStackSlots : Nat
  memSlot : Nat → Nat

/-- The bounded stack view the shim constructs at stack pointer `sp`:
`slice::from_raw_parts_mut(sp, numStackSlots - (sp - stack) / 8)`,
i.e. the slots from `sp` on, of length total slots minus the slots
already consumed between the stack base and `sp` (element count, not
bytes; `u64` is 8 bytes). -/
def shimStackView (r : RtView) (sp : Nat) : List Nat :=
  let stack_occupied := (sp - r.stackBase) / 8
  (List.range (r.numStackSlots - stack_occupied)).map
    (fun i => r.memSlot (stack_occupied + i))

/-- The body of `link_closure_impl::_impl`, the marshalling shim: build
the bounded stack view, decode the arguments from it
(`ARGS::retrieve_from_stack`, modelled by the oracle `retrieve`), invoke
the closure, encode the return value back into the same view
(`RET::put_on_stack`, modelled by the oracle `put`, returning the view's
final contents), and return the engine's no-error sentinel (`none`). -/
def shim_impl {A R : Type} (r : RtView) (sp : Nat)
    (retrieve : List Nat → A) (closure : A → R)
    (put : R → List Nat → List Nat) : List Nat × Option Nat :=
  let stack := shimStackView r sp
  let args := retrieve stack
  let ret := closure args
  (put ret stack, none)

/-- A one-argument i32 → i32 signature, for concrete instantiations. -/
def sigI32 : FuncSig := ⟨[.i32], some .i32⟩

/-- The empty (void) signature, for concrete instantiations. -/
def sigVoid : FuncSig := ⟨[], none⟩

/-- A concrete table entry: an unlinked slot importing field `[2]` from
module `[1]`, with signature `sigI32`. -/
def slotImpA : M3Function := ⟨some [10], some [1], some [2], none, none, sigI32⟩

/-- A second slot importing the same `(module, field)` pair `([1], [2])`
as `slotImpA`, with a different signature, placed after it in table
order. -/
def slotImpB : M3Function := ⟨some [11], some [1], some [2], none, none, sigVoid⟩

/-- A non-import table entry (null `moduleUtf8`/`fieldUtf8`). -/
def slotLocal : M3Function := ⟨some [12], none, none, none, none, sigI32⟩

/-- A concrete module state: a local function followed by the two
duplicate imports. -/
def testMod : ModState := ⟨some [slotLocal, slotImpA, slotImpB], 3, [7]⟩

/-- A concrete module state with a null function-table pointer. -/
def nullMod : ModState := ⟨none, 0, [9]⟩

/-- A concrete loaded-module token registered into runtime `600`. -/
def testTok : Module := ⟨500, 600⟩

/-- A concrete runtime whose allocator has a page at base `2000`. -/
def testRt : RtState := ⟨600, 1000, 16, [], some 2000, 0, []⟩

/-- A concrete runtime whose code-page allocator is exhausted. -/
def testRtNoAlloc : RtState := ⟨600, 1000, 16, [], none, 0, []⟩

/-- A concrete runtime that `testTok` was not registered into. -/
def badRt : RtState := ⟨601, 1000, 16, [], some 2000, 0, []⟩

/-- An oracle for `Function::from_raw`/`compile` that always succeeds. -/
def okOracle : M3Function → Except Err Nat := fun _ => .ok 42

/-- An engine-parser oracle that accepts every input. -/
def engAccept : List Nat → Except Nat Nat := fun _ => .ok 7

/-- A concrete runtime view for the marshalling shim: stack base 1000,
16 stack slots, slot `i` holding value `i`. -/
def testRtView : RtView := ⟨1000, 16, fun i => i⟩

theorem find?_filter_eq {α : Type} (p q : α → Bool) :
    ∀ fs : List α, (fs.filter p).find? q = fs.find? (fun f => p f && q f) := by
  intro fs
  induction fs with
  | nil => rfl
  | cons f fs ih =>
      by_cases hp : p f
      · by_cases hq : q f
        · simp [List.filter_cons, hp, List.find?_cons, hq]
        · simp [List.filter_cons, hp, List.find?_cons, hq, ih]
      · simp [List.filter_cons, hp, List.find?_cons, ih]

theorem splitAtImport_eq_none (mn fn : ByteStr) :
    ∀ fs, splitAtImport mn fn fs = none ↔
      ∀ f ∈ fs, importMatch mn fn f = false := by
  intro fs
  induction fs with
  | nil => simp [splitAtImport]
  | cons f fs ih =>
      by_cases hf : importMatch mn fn f
      · simp [splitAtImport, hf]
      · have hf0 : importMatch mn fn f = false := by simpa using hf
        cases hs : splitAtImport mn fn fs with
        | none =>
            have hall : ∀ x ∈ fs, importMatch mn fn x = false := ih.mp hs
            simp [splitAtImport, hf, hs, hf0]
            exact hall
        | some t =>
            have hne : ¬ ∀ x ∈ fs, importMatch mn fn x = false := by
              intro hall
              rw [ih.mpr hall] at hs
              exact absurd hs (by simp)
            constructor
            · intro h
              rw [splitAtImport, if_neg hf, hs] at h
              exact absurd h (by simp)
            · intro h
              exact absurd (fun x hx => h x (by simp [hx])) hne

theorem splitAtImport_eq_some (mn fn : ByteStr) :
    ∀ fs pre g suf, splitAtImport mn fn fs = some (pre, g, suf) →
      fs = pre ++ g :: suf ∧ (∀ f ∈ pre, importMatch mn fn f = false) ∧
        importMatch mn fn g = true := by
  intro fs
  induction fs with
  | nil => intro pre g suf h; exact absurd h (by simp [splitAtImport])
  | cons f fs ih =>
      intro pre g suf h
      by_cases hf : importMatch mn fn f
      · simp [splitAtImport, hf] at h
        obtain ⟨h1, h2, h3⟩ := h
        subst h1; subst h2; subst h3
        exact ⟨rfl, by simp, hf⟩
      · cases hs : splitAtImport mn fn fs with
        | none => rw [splitAtImport, if_neg hf, hs] at h; exact absurd h (by simp)
        | some t =>
            obtain ⟨p, g0, s⟩ := t
            rw [splitAtImport, if_neg hf, hs] at h
            simp at h
            obtain ⟨h1, h2, h3⟩ := h
            obtain ⟨hfs, hp, hg⟩ := ih p g0 s hs
            subst h2; subst h3
            refine ⟨?_, ?_, hg⟩
            · rw [← h1]; simp [hfs]
            · intro x hx
              rw [← h1] at hx
              rcases List.mem_cons.mp hx with hx | hx
              · subst hx; simpa using hf
              · exact hp x hx

theorem splitAtImport_of_decomp (mn fn : ByteStr) :
    ∀ pre (g : M3Function) suf, (∀ f ∈ pre, importMatch mn fn f = false) →
      importMatch mn fn g = true →
      splitAtImport mn fn (pre ++ g :: suf) = some (pre, g, suf) := by
  intro pre
  induction pre with
  | nil => intro g suf _ hg; simp [splitAtImport, hg]
  | cons f pre ih =>
      intro g suf hpre hg
      have hf : importMatch mn fn f = false := hpre f (by simp)
      have hrec := ih g suf (fun x hx => hpre x (by simp [hx])) hg
      simp [splitAtImport, hf, hrec]

theorem find?_eq_splitAtImport (mn fn : ByteStr) :
    ∀ fs : List M3Function, fs.find? (importMatch mn fn) =
      (splitAtImport mn fn fs).map (fun t => t.2.1) := by
  intro fs
  induction fs with
  | nil => rfl
  | cons f fs ih =>
      by_cases hf : importMatch mn fn f
      · simp [splitAtImport, hf, List.find?_cons]
      · cases hs : splitAtImport mn fn fs with
        | none => simp [splitAtImport, hf, hs, List.find?_cons, ih, hs]
        | some t => simp [splitAtImport, hf, hs, List.find?_cons, ih, hs]

theorem find_import_function_eq_split (m : ModState) (mn fn : ByteStr) :
    find_import_function m mn fn =
      match splitAtImport mn fn m.funcSlice with
      | some (_, g, _) => .ok g
      | none => .error .functionNotFound := by
  unfold find_import_function
  rw [find?_filter_eq]
  have h : (fun f => eq_cstr_str f.importModuleUtf8 mn &&
      eq_cstr_str f.importFieldUtf8 fn) = importMatch mn fn := rfl
  rw [h, find?_eq_splitAtImport]
  cases hs : splitAtImport mn fn m.funcSlice with
  | none => rfl
  | some t => rfl

/-- C3: `find_import_function` is a linear scan of the module's function
table restricted to entries flagged as imports, returning the first
entry, in table order, whose import module name and import field name
both match the arguments by exact byte-string comparison (a match is
exactly a slot whose `moduleUtf8` is the module name and whose
`fieldUtf8` is the field name, so non-imports with null names never
match); if no such entry exists it returns `FunctionNotFound`; when
several entries match the same pair, the first in table order wins. -/
theorem find_import_function_spec (m : ModState)
    (moduleName functionName : ByteStr) :
    (∀ f : M3Function, importMatch moduleName functionName f = true ↔
      f.importModuleUtf8 = some moduleName ∧
        f.importFieldUtf8 = some functionName) ∧
    (find_import_function m moduleName functionName =
        .error .functionNotFound ↔
      ∀ f ∈ m.funcSlice, importMatch moduleName functionName f = false) ∧
    (∀ pre g suf, m.funcSlice = pre ++ g :: suf →
      (∀ f ∈ pre, importMatch moduleName functionName f = false) →
      importMatch moduleName functionName g = true →
      find_import_function m moduleName functionName = .ok g) := by
  refine ⟨?_, ?_, ?_⟩
  · intro f
    unfold importMatch eq_cstr_str
    cases f.importModuleUtf8 with
    | none => simp
    | some a =>
        cases f.importFieldUtf8 with
        | none => simp
        | some b => simp
  · rw [find_import_function_eq_split]
    cases hs : splitAtImport moduleName functionName m.funcSlice with
    | none =>
        simp
        exact (splitAtImport_eq_none moduleName functionName _).mp hs
    | some t =>
        obtain ⟨p, g, s⟩ := t
        obtain ⟨hfs, _, hg⟩ :=
          splitAtImport_eq_some moduleName functionName m.funcSlice p g s hs
        constructor
        · intro h; exact absurd h (by simp)
        · intro hall
          have : importMatch moduleName functionName g = false :=
            hall g (by rw [hfs]; simp)
          rw [this] at hg
          exact absurd hg (by simp)
  · intro pre g suf hdec hpre hg
    rw [find_import_function_eq_split, hdec,
      splitAtImport_of_decomp moduleName functionName pre g suf hpre hg]

/-- C3 witness: on a concrete table holding a non-import followed by two
imports with identical `(module, field)` pairs, the scan returns the
first of the duplicates in table order. -/
theorem find_import_function_spec_witness :
    find_import_function testMod [1] [2] = .ok slotImpA :=
  (find_import_function_spec testMod [1] [2]).2.2 [slotLocal] slotImpA
    [slotImpB] rfl (by decide) (by decide)

/-- C8: the by-index lookup `function` is bounds-checked: an index at or
beyond the function count yields `FunctionNotFound` for every downstream
oracle (so without reading any table entry), and an in-bounds index
selects exactly the entry at that ordinal position; the by-name lookup
`find_function` yields `FunctionNotFound` when no entry's exported name
matches exactly — no partial or fuzzy matching. -/
theorem function_lookup_bounds (self : Module) (rt : RtState) (m : ModState)
    (hrt : rt.raw = self.raw_rt) (hwf : m.WF) :
    (∀ idx, m.numFunctions ≤ idx →
      ∀ oracle, function self rt m idx oracle = .err .functionNotFound) ∧
    (∀ i : Fin m.funcSlice.length, ∀ oracle,
      function self rt m i oracle =
        match oracle (m.funcSlice.get i) with
        | .ok h => .ok h
        | .error e => .err e) ∧
    (∀ functionName oracle,
      (∀ f ∈ m.funcSlice, eq_cstr_str f.name functionName = false) →
      find_function self rt m functionName oracle = .err .functionNotFound) := by
  have hb : rt_check_ok rt.raw self.raw_rt = true := by
    simp [rt_check_ok, hrt]
  refine ⟨?_, ?_, ?_⟩
  · intro idx hidx oracle
    have hnone : m.funcSlice[idx]? = none :=
      List.getElem?_eq_none (le_trans (le_of_eq hwf.symm) hidx)
    simp [function, hb, hnone]
  · intro i oracle
    have hsome : m.funcSlice[(i : Nat)]? = some (m.funcSlice.get i) := by
      rw [List.getElem?_eq_getElem i.isLt]
      rfl
    simp [function, hb, hsome]
  · intro functionName oracle hall
    have hnone : m.funcSlice.find?
        (fun f => eq_cstr_str f.name functionName) = none :=
      List.find?_eq_none.mpr (by intro x hx; simp [hall x hx])
    simp [find_function, hb, hnone]

/-- C8 witness: on the concrete module of three entries, index 5 misses
the bounds check, index 1 selects exactly the second entry, and a name
matching no entry yields `FunctionNotFound`. -/
theorem function_lookup_bounds_witness :
    function testTok testRt testMod 5 okOracle = .err .functionNotFound ∧
    function testTok testRt testMod 1 okOracle = .ok 42 ∧
    find_function testTok testRt testMod [99] okOracle =
      .err .functionNotFound := by
  have h := function_lookup_bounds testTok testRt testMod rfl (by decide)
  refine ⟨h.1 5 (by decide) okOracle, ?_, h.2.2 [99] okOracle (by decide)⟩
  have h2 := h.2.1 ⟨1, by decide⟩ okOracle
  simpa [okOracle] using h2

/-- C9: every public operation on a loaded-module token — `link_function`,
`link_closure`, `find_function`, `function`, `name`, `link_libc` — first
checks that the supplied runtime is the runtime the token was registered
into, and on mismatch rejects the call as a hard fault (caller contract
violation, not a recoverable error result), with the module table and
runtime state untouched, whatever the remaining arguments are. -/
theorem rt_mismatch_hard_fault (self : Module) (rt : RtState) (m : ModState)
    (h : rt.raw ≠ self.raw_rt) :
    (∀ mn fn c fp, link_function self rt m mn fn c fp = (.fault, m, rt)) ∧
    (∀ mn fn c sa ca,
      link_closure self rt m mn fn c sa ca = (.fault, m, rt)) ∧
    (∀ fn oracle, find_function self rt m fn oracle = .fault) ∧
    (∀ idx oracle, function self rt m idx oracle = .fault) ∧
    name self rt m = .fault ∧
    (∀ er, link_libc self rt er = .fault) := by
  have hb : rt_check_ok rt.raw self.raw_rt = false := by
    simp [rt_check_ok]
    exact h
  exact ⟨fun _ _ _ _ => by simp [link_function, hb],
    fun _ _ _ _ _ => by simp [link_closure, hb],
    fun _ _ => by simp [find_function, hb],
    fun _ _ => by simp [function, hb],
    by simp [name, hb],
    fun _ => by simp [link_libc, hb]⟩

/-- C9 witness: the concrete token registered into runtime `600`,
operated on with the distinct concrete runtime `601`, hard-faults on a
lookup, on a link, and on `name`. -/
theorem rt_mismatch_hard_fault_witness :
    function testTok badRt testMod 1 okOracle = .fault ∧
    link_function testTok badRt testMod [1] [2] sigI32 77 =
      (.fault, testMod, badRt) ∧
    name testTok badRt testMod = .fault := by
  have h := rt_mismatch_hard_fault testTok badRt testMod (by decide)
  exact ⟨h.2.2.2.1 1 okOracle, h.1 [1] [2] sigI32 77, h.2.2.2.2.1⟩

/-- C10: on a module whose function-table pointer is null — whence, by
well-formedness of the raw state, its function count is zero and the
substituted dangling-but-valid slice is empty — every lookup operation
(`find_function`, `function` at any index, `find_import_function` and
therefore the lookup step of both linking operations) returns
`FunctionNotFound` over a scan of zero entries, leaving table and
runtime untouched. -/
theorem null_function_table_spec (self : Module) (rt : RtState) (m : ModState)
    (hnull : m.functions = none) (hwf : m.WF) (hrt : rt.raw = self.raw_rt) :
    m.numFunctions = 0 ∧ m.funcSlice = [] ∧
    (∀ fn oracle, find_function self rt m fn oracle = .err .functionNotFound) ∧
    (∀ idx oracle, function self rt m idx oracle = .err .functionNotFound) ∧
    (∀ mn fn, find_import_function m mn fn = .error .functionNotFound) ∧
    (∀ mn fn c fp,
      link_function self rt m mn fn c fp = (.err .functionNotFound, m, rt)) ∧
    (∀ mn fn c sa ca,
      link_closure self rt m mn fn c sa ca =
        (.err .functionNotFound, m, rt)) := by
  have hb : rt_check_ok rt.raw self.raw_rt = true := by
    simp [rt_check_ok, hrt]
  have hsl : m.funcSlice = [] := by
    unfold ModState.funcSlice
    rw [hnull]
  have hnum : m.numFunctions = 0 := by
    rw [ModState.WF, hsl] at hwf
    simpa using hwf
  refine ⟨hnum, hsl, ?_, ?_, ?_, ?_, ?_⟩
  · intro fn oracle; simp [find_function, hb, hsl]
  · intro idx oracle; simp [function, hb, hsl]
  · intro mn fn
    rw [find_import_function_eq_split, hsl]
    rfl
  · intro mn fn c fp; simp [link_function, hb, hsl, splitAtImport]
  · intro mn fn c sa ca; simp [link_closure, hb, hsl, splitAtImport]

/-- C10 witness: on the concrete null-table module, the by-index, by-name
and import lookups and both link operations all return
`FunctionNotFound`. -/
theorem null_function_table_spec_witness :
    function testTok testRt nullMod 0 okOracle = .err .functionNotFound ∧
    find_import_function nullMod [1] [2] = .error .functionNotFound ∧
    link_closure testTok testRt nullMod [1] [2] sigI32 888 999 =
      (.err .functionNotFound, nullMod, testRt) := by
  have h := null_function_table_spec testTok testRt nullMod rfl (by decide) rfl
  exact ⟨h.2.2.2.1 0 okOracle, h.2.2.2.2.1 [1] [2],
    h.2.2.2.2.2.2 [1] [2] sigI32 888 999⟩

/-- C1: when the import slot was found and signature validation
succeeded but code-page allocation returns null, both `link_function`
and `link_closure` return the `OutOfMemory` (malloc-failed-code-page)
error, and the module table is returned exactly as it was — the slot's
compiled-entry pointer and owning-module backpointer are not written —
and the runtime (pages, acquisition count, closure registry) is likewise
untouched. -/
theorem link_alloc_failure_atomic (self : Module) (rt : RtState)
    (m : ModState) (moduleName functionName : ByteStr) (contract : FuncSig)
    (fp shimAddr closureAddr : Nat)
    (pre : List M3Function) (slot : M3Function) (suf : List M3Function)
    (hrt : rt.raw = self.raw_rt)
    (hfound : splitAtImport moduleName functionName m.funcSlice =
      some (pre, slot, suf))
    (hsig : validate_sig contract slot.sig = .ok ())
    (halloc : rt.allocBase = none) :
    link_function self rt m moduleName functionName contract fp =
      (.err .outOfMemory, m, rt) ∧
    link_closure self rt m moduleName functionName contract
        shimAddr closureAddr =
      (.err .outOfMemory, m, rt) := by
  have hb : rt_check_ok rt.raw self.raw_rt = true := by
    simp [rt_check_ok, hrt]
  constructor
  · simp [link_function, hb, hfound, hsig, link_func_impl,
      AcquireCodePageWithCapacity, halloc]
  · simp [link_closure, hb, hfound, hsig, link_closure_impl,
      AcquireCodePageWithCapacity, halloc]

/-- C1 witness: on the concrete module and the allocator-exhausted
runtime, both linking calls return `OutOfMemory` with table and runtime
unchanged. -/
theorem link_alloc_failure_atomic_witness :
    link_function testTok testRtNoAlloc testMod [1] [2] sigI32 77 =
      (.err .outOfMemory, testMod, testRtNoAlloc) ∧
    link_closure testTok testRtNoAlloc testMod [1] [2] sigI32 888 999 =
      (.err .outOfMemory, testMod, testRtNoAlloc) :=
  link_alloc_failure_atomic testTok testRtNoAlloc testMod [1] [2] sigI32
    77 888 999 [slotLocal] slotImpA [slotImpB] rfl (by decide) rfl rfl

/-- C4: when the found slot's declared signature disagrees with the
static ARGS/RET contract, `link_closure` fails with `SignatureMismatch`
and no code page is acquired during the call — the runtime (in
particular its acquisition count) and the module table come back exactly
as they were, whatever the state of the allocator, so validation
strictly precedes allocation. -/
theorem link_closure_sig_mismatch (self : Module) (rt : RtState)
    (m : ModState) (moduleName functionName : ByteStr) (contract : FuncSig)
    (shimAddr closureAddr : Nat)
    (pre : List M3Function) (slot : M3Function) (suf : List M3Function)
    (hrt : rt.raw = self.raw_rt)
    (hfound : splitAtImport moduleName functionName m.funcSlice =
      some (pre, slot, suf))
    (hsig : slot.sig ≠ contract) :
    link_closure self rt m moduleName functionName contract
        shimAddr closureAddr =
      (.err .signatureMismatch, m, rt) ∧
    (link_closure self rt m moduleName functionName contract
        shimAddr closureAddr).2.2.acquires = rt.acquires := by
  have hb : rt_check_ok rt.raw self.raw_rt = true := by
    simp [rt_check_ok, hrt]
  have hv : validate_sig contract slot.sig = .error .signatureMismatch := by
    unfold validate_sig
    rw [if_neg (fun hc => hsig hc.symm)]
  have h1 : link_closure self rt m moduleName functionName contract
      shimAddr closureAddr = (.err .signatureMismatch, m, rt) := by
    simp [link_closure, hb, hfound, hv]
  exact ⟨h1, by rw [h1]⟩

/-- C4 witness: linking a closure with the void contract against the
concrete slot declaring an i32 → i32 signature fails with
`SignatureMismatch` and leaves the runtime — allocator untouched —
exactly as it was. -/
theorem link_closure_sig_mismatch_witness :
    link_closure testTok testRt testMod [1] [2] sigVoid 888 999 =
      (.err .signatureMismatch, testMod, testRt) :=
  (link_closure_sig_mismatch testTok testRt testMod [1] [2] sigVoid 888 999
    [slotLocal] slotImpA [slotImpB] rfl (by decide) (by decide)).1

/-- C6: a successful `link_function` call emits a thunk of exactly two
words in order — the `op_CallRawFunction` invoke-raw-native-pointer
operation tag followed by the native function pointer — into the freshly
acquired 2-word page; the slot is written back at its table position with
its compiled-entry pointer set to the start of that page and its
owning-module backpointer set to the linked module. -/
theorem link_function_success_thunk (self : Module) (rt : RtState)
    (m : ModState) (moduleName functionName : ByteStr) (contract : FuncSig)
    (fp b : Nat)
    (pre : List M3Function) (slot : M3Function) (suf : List M3Function)
    (hrt : rt.raw = self.raw_rt)
    (hfound : splitAtImport moduleName functionName m.funcSlice =
      some (pre, slot, suf))
    (hsig : validate_sig contract slot.sig = .ok ())
    (halloc : rt.allocBase = some b) :
    link_function self rt m moduleName functionName contract fp =
      (.ok (),
       writeSlot m pre
         { slot with compiled := some b, modulePtr := some self.raw } suf,
       { rt with allocBase := none, acquires := rt.acquires + 1,
                 pages := rt.pages ++ [⟨b, 2, [op_CallRawFunction, fp]⟩] }) := by
  have hb : rt_check_ok rt.raw self.raw_rt = true := by
    simp [rt_check_ok, hrt]
  simp [link_function, hb, hfound, hsig, link_func_impl,
    AcquireCodePageWithCapacity, halloc, GetPagePC, EmitWord_impl,
    ReleaseCodePage]

/-- C6 witness: on the concrete module and runtime, linking native
pointer `77` against import `([1], [2])` writes back the first matching
slot with compiled entry `2000` (the page start) and module backpointer
`500`, and releases the page `[op_CallRawFunction, 77]`. -/
theorem link_function_success_thunk_witness :
    link_function testTok testRt testMod [1] [2] sigI32 77 =
      (.ok (),
       writeSlot testMod [slotLocal]
         { slotImpA with compiled := some 2000, modulePtr := some 500 }
         [slotImpB],
       { testRt with allocBase := none, acquires := 1,
                     pages := [⟨2000, 2, [op_CallRawFunction, 77]⟩] }) :=
  link_function_success_thunk testTok testRt testMod [1] [2] sigI32 77 2000
    [slotLocal] slotImpA [slotImpB] rfl (by decide) rfl rfl

/-- C5: a successful `link_closure` call moves the closure into a pinned
heap allocation at a stable address, appends exactly that address to the
runtime's closure lifetime registry (previous entries unchanged, so the
registry lives as long as the runtime), and emits a thunk of exactly
three words in order: the `op_CallRawFunctionEx` invoke-shim operation
tag, the address of the shim routine specialized to (ARGS, RET, closure
type), and the pointer to the pinned closure storage. -/
theorem link_closure_success_registry (self : Module) (rt : RtState)
    (m : ModState) (moduleName functionName : ByteStr) (contract : FuncSig)
    (shimAddr closureAddr b : Nat)
    (pre : List M3Function) (slot : M3Function) (suf : List M3Function)
    (hrt : rt.raw = self.raw_rt)
    (hfound : splitAtImport moduleName functionName m.funcSlice =
      some (pre, slot, suf))
    (hsig : validate_sig contract slot.sig = .ok ())
    (halloc : rt.allocBase = some b) :
    link_closure self rt m moduleName functionName contract
        shimAddr closureAddr =
      (.ok (),
       writeSlot m pre
         { slot with compiled := some b, modulePtr := some self.raw } suf,
       { rt with allocBase := none, acquires := rt.acquires + 1,
                 pages := rt.pages ++
                   [⟨b, 3, [op_CallRawFunctionEx, shimAddr, closureAddr]⟩],
                 closures := rt.closures ++ [closureAddr] }) := by
  have hb : rt_check_ok rt.raw self.raw_rt = true := by
    simp [rt_check_ok, hrt]
  simp [link_closure, hb, hfound, hsig, link_closure_impl,
    AcquireCodePageWithCapacity, halloc, GetPagePC, EmitWord_impl,
    ReleaseCodePage]

/-- C5 witness: on the concrete module and runtime, linking a closure
pinned at address `999` with shim address `888` appends `999` to the
(previously empty) registry and releases the three-word page
`[op_CallRawFunctionEx, 888, 999]`. -/
theorem link_closure_success_registry_witness :
    link_closure testTok testRt testMod [1] [2] sigI32 888 999 =
      (.ok (),
       writeSlot testMod [slotLocal]
         { slotImpA with compiled := some 2000, modulePtr := some 500 }
         [slotImpB],
       { testRt with allocBase := none, acquires := 1,
                     pages := [⟨2000, 3, [op_CallRawFunctionEx, 888, 999]⟩],
                     closures := [999] }) :=
  link_closure_success_registry testTok testRt testMod [1] [2] sigI32
    888 999 2000 [slotLocal] slotImpA [slotImpB] rfl (by decide) rfl rfl

/-- C7: for every shim invocation at a stack pointer lying `k` u64 slots
past the runtime's stack base (with `k` within the stack, as the engine
guarantees, so the Rust `usize` subtractions do not underflow), the stack
view handed both to argument decoding (`retrieve`) and to return encoding
(`put`) is one and the same slice whose length is `numStackSlots - k` —
total stack slots minus slots already consumed, measured in elements
(u64 slots), not bytes. -/
theorem shim_stack_capacity {A R : Type} (r : RtView) (k : Nat)
    (hk : k ≤ r.numStackSlots)
    (retrieve : List Nat → A) (closure : A → R)
    (put : R → List Nat → List Nat) :
    (shimStackView r (r.stackBase + 8 * k)).length = r.numStackSlots - k ∧
    shim_impl r (r.stackBase + 8 * k) retrieve closure put =
      (put (closure (retrieve (shimStackView r (r.stackBase + 8 * k))))
        (shimStackView r (r.stackBase + 8 * k)), none) := by
  constructor
  · have hocc : (r.stackBase + 8 * k - r.stackBase) / 8 = k := by
      rw [Nat.add_sub_cancel_left, Nat.mul_div_cancel_left k (by norm_num)]
    simp [shimStackView, hocc]
  · rfl

/-- C7 witness: on the concrete runtime view with 16 slots, a stack
pointer 4 slots past the base yields a view of 16 − 4 slots. -/
theorem shim_stack_capacity_witness :
    (shimStackView testRtView (testRtView.stackBase + 8 * 4)).length =
      testRtView.numStackSlots - 4 :=
  (shim_stack_capacity testRtView 4 (by decide) (fun s => s) (fun s => s)
    (fun v _ => v)).1

/-- C2 counterexample: at the concrete byte slice of `2 ^ 32` zero bytes
(length exceeding the 32-bit limit), `ParsedModule::parse` hits
`assert!(bytes.len() <= !0u32 as usize)` and panics — a hard fault, not
the `ModuleTooLarge` error return the claim states. -/
theorem parse_oversize_counterexample :
    ParsedModule.parse engAccept (List.replicate (2 ^ 32) 0) =
      Outcome.fault ∧
    ParsedModule.parse engAccept (List.replicate (2 ^ 32) 0) ≠
      Outcome.err Err.moduleTooLarge := by
  have h : ParsedModule.parse engAccept (List.replicate (2 ^ 32) 0) =
      Outcome.fault := by
    rw [ParsedModule.parse, if_neg]
    rw [List.length_replicate]
    norm_num [U32_MAX]
  exact ⟨h, by rw [h]; simp⟩

/-- C2 (amended): for every byte slice whose length exceeds the 32-bit
limit, `ParsedModule::parse` panics on its length assertion (a hard
fault, not an error return), and the engine parser is not invoked — the
outcome is the same for every parser oracle; for every byte slice of
length at most the limit, the parser is invoked and its verdict is the
result: a well-formed module (one the engine accepts) parses
successfully, an engine error code is passed through. -/
theorem parse_length_limit (bytes : List Nat) :
    (U32_MAX < bytes.length →
      ∀ eng, ParsedModule.parse eng bytes = .fault) ∧
    (bytes.length ≤ U32_MAX →
      ∀ eng, ParsedModule.parse eng bytes =
        match eng bytes with
        | .ok p => .ok p
        | .error c => .err (.wasm3 c)) := by
  constructor
  · intro h eng
    rw [ParsedModule.parse, if_neg (by omega)]
  · intro h eng
    rw [ParsedModule.parse, if_pos h]

/-- C2 (amended) witness: a one-byte input is under the limit and parses
to the accepting engine's module pointer; the `2 ^ 32`-byte input
hard-faults. -/
theorem parse_length_limit_witness :
    ParsedModule.parse engAccept [0] = Outcome.ok 7 ∧
    ParsedModule.parse engAccept (List.replicate (2 ^ 32) 0) =
      Outcome.fault := by
  constructor
  · have h := (parse_length_limit [0]).2 (by norm_num [U32_MAX]) engAccept
    simpa [engAccept] using h
  · exact (parse_length_limit _).1
      (by rw [List.length_replicate]; norm_num [U32_MAX]) engAccept

end Wasm3
